import Mathlib

/-!
Verification of the schema-merge / override orchestration of
`GraphQLFederationFactory` (src/packages/graphql/lib/federation/
graphql-federation.factory.ts), over a shallow embedding of the
GraphQL type system it manipulates.

Modelling conventions:
* JavaScript objects used as plain dictionaries (`extensions`, AST nodes,
  resolver maps) are association lists `List (String × ...)`; the spread
  `\x7b...a, ...b\x7d` becomes `jsSpread`, whose key-to-value mapping is the
  same as the JS spread (entries of `b` override same-keyed entries of `a`).
* Opaque runtime values (resolver functions, AST payloads, enum internals,
  scalar parse functions) are modelled as `Nat` tokens; token equality
  models reference identity.
* Every named type carries an `id : Nat` modelling JavaScript object
  identity, so that "the federated-schema instance" and "the auto-generated
  instance" of a same-named type are distinguishable.
* `resolveType` callbacks are defunctionalized (`RTFn`): the auto-generated
  schema carries primitive callbacks `RTFn.prim c`, and the wrapper the
  factory installs is `RTFn.wrapped f`.  `evalRT` gives their semantics,
  with the primitives' behaviour supplied by an arbitrary environment.
  `await` on the result is modelled as the identity (the value is already
  resolved by the time the wrapper inspects it).
-/

namespace GqlFed

/-- Opaque runtime value (a resolver function, an AST payload, ...);
equality of tokens models JS reference identity. -/
abbrev Token := Nat

/-- A JavaScript object used as a dictionary, e.g. `extensions` or an AST
node: an association list from string keys to opaque values. -/
abbrev JObj := List (String × Token)

/-- JS object spread `\x7b...a, ...b\x7d`: entries of `b` override same-keyed
entries of `a`. -/
def jsSpread (a b : JObj) : JObj :=
  a.filter (fun kv => (b.lookup kv.1).isNone) ++ b

/-- Defunctionalized `resolveType` callback: either a primitive callback
coming from the auto-generated schema (identified by an opaque code), or
the wrapper `overrideFederatedResolveType` installs around one. -/
inductive RTFn where
  | prim (code : Nat)
  | wrapped (inner : RTFn)
  deriving Repr, DecidableEq

/-- Data of one field of an object or interface type: its `resolve`
function (if any), its `extensions` and its AST node. -/
structure FieldData where
  resolve : Option Token
  extensions : JObj
  astNode : Option JObj
  deriving Repr, DecidableEq

/-- Data of one field of an input object type (input fields have no
`resolve` function). -/
structure InputFieldData where
  extensions : JObj
  astNode : Option JObj
  deriving Repr, DecidableEq

/-- Kind-specific payload of a GraphQL named type. -/
inductive TypeKind where
  | object (fields : List (String × FieldData))
  | interfaceK (fields : List (String × FieldData)) (resolveType : Option RTFn)
  | union (resolveType : Option RTFn)
  | enum (data : Token)
  | inputObject (fields : List (String × InputFieldData))
  | scalar (parseLiteral parseValue : Option Token)
  deriving Repr, DecidableEq

/-- A GraphQL named type: JS object identity (`id`), name, AST node,
`extensions`, and the kind-specific payload. -/
structure NamedType where
  id : Nat
  name : String
  astNode : Option JObj
  extensions : JObj
  kind : TypeKind
  deriving Repr, DecidableEq

/-- A schema, reduced to its type map: the list of its named types. -/
abbrev Schema := List NamedType

/-- `schema.getType(name)`: look a named type up by exact name. -/
def getType (s : Schema) (n : String) : Option NamedType :=
  s.find? (fun t => t.name == n)

/-- `isUnionType` type guard. -/
def isUnionType (t : NamedType) : Bool :=
  match t.kind with
  | .union _ => true
  | _ => false

/-- `isInterfaceType` type guard. -/
def isInterfaceType (t : NamedType) : Bool :=
  match t.kind with
  | .interfaceK _ _ => true
  | _ => false

/-- `isEnumType` type guard. -/
def isEnumType (t : NamedType) : Bool :=
  match t.kind with
  | .enum _ => true
  | _ => false

/-- `isObjectType` type guard / `instanceof GraphQLObjectType`. -/
def isObjectType (t : NamedType) : Bool :=
  match t.kind with
  | .object _ => true
  | _ => false

/-- Reading `.resolveType` off a value that is a `GraphQLUnionType` or
`GraphQLInterfaceType`; `none` when the value is of neither class or has
no `resolveType`.  This is exactly the bail condition of
`overrideFederatedResolveType` (lines 270-279). -/
def abstractResolveType (t : NamedType) : Option RTFn :=
  match t.kind with
  | .union rt => rt
  | .interfaceK _ rt => rt
  | _ => none

/-- Install a `resolveType` on a union or interface type
(`typeInFederatedSchema.resolveType = ...`); identity on other kinds
(the source only calls this on unions and interfaces). -/
def setAbstractResolveType (t : NamedType) (f : RTFn) : NamedType :=
  match t.kind with
  | .union _ => { t with kind := .union (some f) }
  | .interfaceK fs _ => { t with kind := .interfaceK fs (some f) }
  | _ => t

/-- `overrideFederatedResolveType` (lines 261-317): look the same-named
type up in the auto-generated schema; bail (returning the federated type
unchanged) unless it exists, is a union or interface, and has a
`resolveType`; otherwise install the wrapper around the auto-generated
callback. -/
def overrideFederatedResolveType (typeInFederatedSchema : NamedType)
    (autoGeneratedSchema : Schema) : NamedType :=
  match getType autoGeneratedSchema typeInFederatedSchema.name with
  | none => typeInFederatedSchema
  | some autoGeneratedType =>
    match abstractResolveType autoGeneratedType with
    | none => typeInFederatedSchema
    | some f => setAbstractResolveType typeInFederatedSchema (.wrapped f)

/-- `type.getFields()` on a value cast blindly (`as ...`) from
`autoGeneratedSchema.getType(name)`: object and interface types have
fields with `resolve`/`extensions`/`astNode`; input object fields have no
`resolve` property (reading it yields `undefined`); union, enum and
scalar types have no `getFields` method at all (calling it throws). -/
def getFieldsOf (t : NamedType) : Option (List (String × FieldData)) :=
  match t.kind with
  | .object fs => some fs
  | .interfaceK fs _ => some fs
  | .inputObject fs =>
    some (fs.map (fun kv =>
      (kv.1, { resolve := none, extensions := kv.2.extensions,
               astNode := kv.2.astNode })))
  | _ => none

/-- Field keys of a named type (used to state well-formedness: a real JS
field map cannot bind the same key twice). -/
def fieldKeys (t : NamedType) : List String :=
  match t.kind with
  | .object fs => fs.map Prod.fst
  | .interfaceK fs _ => fs.map Prod.fst
  | .inputObject fs => fs.map Prod.fst
  | _ => []

/-- The field list of an object type (empty for other kinds). -/
def objectFields (t : NamedType) : List (String × FieldData) :=
  match t.kind with
  | .object fs => fs
  | _ => []

/-- One field update of the object-type branch (lines 215-229): copy
`extensions` and `astNode` from the auto-generated field, and copy its
`resolve` only when the federated field has none. -/
def mergeObjectField (v field : FieldData) : FieldData :=
  { extensions := field.extensions
    astNode := field.astNode
    resolve :=
      match v.resolve with
      | some r => some r
      | none => field.resolve }

/-- The per-type callback passed to `transformSchema`
(`overrideOrExtendResolvers`, lines 180-254).  `.error` models a thrown
`TypeError` (calling `getFields` on a cast value that has none);
`.ok none` models the callback returning `undefined`
(the enum branch when no same-named auto-generated type exists). -/
def overrideType (autoGeneratedSchema : Schema) (type : NamedType) :
    Except String (Option NamedType) :=
  match type.kind with
  | .union _ =>
    if type.name ≠ "_Entity" then
      .ok (some (overrideFederatedResolveType type autoGeneratedSchema))
    else
      -- `_Entity` fails the union guard and every later type guard;
      -- control reaches the final `return type`.
      .ok (some type)
  | .interfaceK _ _ =>
    .ok (some (overrideFederatedResolveType type autoGeneratedSchema))
  | .enum _ =>
    .ok (getType autoGeneratedSchema type.name)
  | .inputObject fields =>
    match getType autoGeneratedSchema type.name with
    | none => .ok (some type)
    | some autoGeneratedInputType =>
      match getFieldsOf autoGeneratedInputType with
      | none => .error "TypeError: getFields is not a function"
      | some autoFields =>
        let newFields := fields.map (fun kv =>
          (kv.1,
            match autoFields.lookup kv.1 with
            | none => kv.2
            | some field =>
              { extensions := field.extensions,
                astNode := field.astNode : InputFieldData }))
        .ok (some { type with
          extensions := autoGeneratedInputType.extensions
          kind := .inputObject newFields })
  | .object fields =>
    match getType autoGeneratedSchema type.name with
    | none => .ok (some type)
    | some autoGeneratedObjectType =>
      match getFieldsOf autoGeneratedObjectType with
      | none => .error "TypeError: getFields is not a function"
      | some autoFields =>
        let newFields := fields.map (fun kv =>
          (kv.1,
            match autoFields.lookup kv.1 with
            | none => kv.2
            | some field => mergeObjectField kv.2 field))
        let newAst :=
          match autoGeneratedObjectType.astNode with
          | none => type.astNode
          | some autoAst => some (jsSpread (type.astNode.getD []) autoAst)
        .ok (some { type with
          astNode := newAst
          extensions := jsSpread type.extensions
            autoGeneratedObjectType.extensions
          kind := .object newFields })
  | .scalar _ _ =>
    if type.name = "DateTime" then
      match getType autoGeneratedSchema type.name with
      | none => .ok (some type)
      | some autoGeneratedScalar =>
        -- reading `.parseLiteral` / `.parseValue` off the blind cast:
        -- `undefined` when the same-named type is not a scalar
        .ok (some { type with
          kind := .scalar
            (match autoGeneratedScalar.kind with
             | .scalar pl _ => pl
             | _ => none)
            (match autoGeneratedScalar.kind with
             | .scalar _ pv => pv
             | _ => none) })
    else
      .ok (some type)

/-- Modelled from the spec: the `transformSchema` walker
(`../utils/transform-schema.util`, not under `src/`) visits every named
type of the schema exactly once, replaces it by the callback's result,
and keeps the federated type unchanged when the callback yields nothing
("if no match exists, the federated type is returned unchanged"); a
thrown error propagates.  This is its action on one type. -/
def overrideStep (autoGeneratedSchema : Schema) (type : NamedType) :
    Except String NamedType :=
  (overrideType autoGeneratedSchema type).map (fun o => o.getD type)

/-- Effectful map over the schema's type list (the walk of
`transformSchema`, modelled from the spec as for `overrideStep`). -/
def mapE (f : NamedType → Except String NamedType) :
    Schema → Except String Schema
  | [] => .ok []
  | t :: rest =>
    match f t with
    | .error e => .error e
    | .ok t' =>
      match mapE f rest with
      | .error e => .error e
      | .ok rest' => .ok (t' :: rest')

/-- `overrideOrExtendResolvers` (lines 175-255): apply the per-type
override to every named type of the federated schema.  (The
`printSchema` parameter of the source function is unused there and is
omitted.) -/
def overrideOrExtendResolvers (executableSchema autoGeneratedSchema : Schema) :
    Except String Schema :=
  mapE (overrideStep autoGeneratedSchema) executableSchema

/-- Result universe of a `resolveType` callback: empty (null/undefined),
a type name, or a named-type instance. -/
inductive RTResult where
  | empty
  | str (s : String)
  | obj (t : NamedType)
  deriving Repr, DecidableEq

/-- The runtime arguments of a `resolveType` call: `value`, `context`
and `abstractType` are opaque; `info` is reduced to the part the wrapper
reads, `info.schema`. -/
structure RInput where
  value : Token
  context : Token
  abstractType : Token
  infoSchema : Schema

/-- Semantics of `resolveType` callbacks.  `P` supplies the behaviour of
the auto-generated primitives.  `RTFn.wrapped f` is the wrapper of lines
281-315: await the inner result; return it unchanged when empty or a
string; otherwise look its name up in `info.schema` and prefer that
instance when it exists and is an object type, falling back to the raw
result. -/
def evalRT (P : Nat → RInput → RTResult) : RTFn → RInput → RTResult
  | .prim c, i => P c i
  | .wrapped f, i =>
    match evalRT P f i with
    | .empty => .empty
    | .str s => .str s
    | .obj resultFromAutogenSchema =>
      match getType i.infoSchema resultFromAutogenSchema.name with
      | some resultFromFederatedSchema =>
        if isObjectType resultFromFederatedSchema then
          .obj resultFromFederatedSchema
        else
          .obj resultFromAutogenSchema
      | none => .obj resultFromAutogenSchema

/-! ### Federation version / config resolution -/

/-- A JavaScript value, as far as `getFederationVersionAndConfig`
inspects one. -/
inductive JSVal where
  | undefined
  | null
  | bool (b : Bool)
  | num (n : Int)
  | str (s : String)
  | obj (fields : List (String × JSVal))
  deriving Repr

/-- JS falsiness (`!x`). -/
def isFalsy : JSVal → Bool
  | .undefined => true
  | .null => true
  | .bool b => !b
  | .num n => n == 0
  | .str s => s.isEmpty
  | .obj _ => false

/-- `typeof x === 'object'` — true for objects and for `null`. -/
def typeofObject : JSVal → Bool
  | .obj _ => true
  | .null => true
  | _ => false

/-- Property access `x.k` on an object (`undefined` when the key is
absent; only ever reached on values that passed the object guard). -/
def getProp (x : JSVal) (k : String) : JSVal :=
  match x with
  | .obj fields => (fields.lookup k).getD .undefined
  | _ => .undefined

/-- `x ?? d`: nullish coalescing. -/
def isNullish : JSVal → Bool
  | .undefined => true
  | .null => true
  | _ => false

/-- Optional chaining `x?.k`. -/
def optProp (x : JSVal) (k : String) : JSVal :=
  if isNullish x then .undefined else getProp x k

/-- `DEFAULT_FEDERATION_VERSION` (line 41). -/
def DEFAULT_FEDERATION_VERSION : JSVal := .num 1

/-- `getFederationVersionAndConfig` (lines 358-371).  The second
component models the optional `FederationConfig` slot of the returned
tuple: `none` when the source returns a one-element tuple. -/
def getFederationVersionAndConfig (autoSchemaFile : JSVal) :
    JSVal × Option JSVal :=
  if isFalsy autoSchemaFile || !typeofObject autoSchemaFile then
    (DEFAULT_FEDERATION_VERSION, none)
  else
    let federation := getProp autoSchemaFile "federation"
    if !typeofObject federation then
      ((if isNullish federation then DEFAULT_FEDERATION_VERSION
        else federation), none)
    else
      ((if isNullish (optProp federation "version") then
          DEFAULT_FEDERATION_VERSION
        else optProp federation "version"), some federation)

/-! ### Resolver-map assembly -/

/-- A resolver map: keys to opaque resolver values. -/
abbrev ResolverMap := List (String × Token)

/-- Modelled from the spec: the `extend` utility (`../utils`, not under
`src/`) shallow-merges two resolver maps, "later entries override
earlier ones on key collision". -/
def extendRM (prev curr : ResolverMap) : ResolverMap :=
  jsSpread prev curr

/-- `extendResolvers` (lines 171-173): left fold of `extend` over the
list of resolver maps, starting from the empty map. -/
def extendResolvers (resolvers : List ResolverMap) : ResolverMap :=
  resolvers.foldl extendRM []

/-- The caller-supplied `resolvers` option: either a single map or an
array of maps (`Array.isArray` branch of line 161). -/
inductive CallerResolvers where
  | single (m : ResolverMap)
  | array (ms : List ResolverMap)

/-- `Array.isArray(optionResolvers) ? optionResolvers : [optionResolvers]`. -/
def callerResolverList : CallerResolvers → List ResolverMap
  | .single m => [m]
  | .array ms => ms

/-- `getResolvers` (lines 160-169): merge, in order, the auto-discovered
resolvers, the auto-discovered scalar resolver maps, and the caller's
resolvers.  The two explorer services are external collaborators; their
results are parameters. -/
def getResolvers (explored : ResolverMap) (scalarsExplored : List ResolverMap)
    (optionResolvers : CallerResolvers) : ResolverMap :=
  extendResolvers (explored :: (scalarsExplored ++
    callerResolverList optionResolvers))

/-- Spec-side lookup semantics for a merge chain: the value for `k`
coming from the latest map of the list that binds `k`. -/
def lastLookup (maps : List ResolverMap) (k : String) : Option Token :=
  maps.foldl (fun acc m =>
    match m.lookup k with
    | some v => some v
    | none => acc) none

/-! ### mergeWithSchema -/

/-- The recognized fields of the options object, as far as
`mergeWithSchema` reads them.  The transform hook receives and returns
the (possibly absent) schema value, as in the source where an absent
schema flows through the hook unchanged in shape. -/
structure GqlModuleOptions where
  autoSchemaFile : JSVal
  typeDefs : Option String
  schema : Option Schema
  transformSchemaHook : Option (Option Schema → Option Schema)

/-- The observable outcome of `mergeWithSchema` (lines 53-78): the
`schema` and `typeDefs` fields of the returned options, and the schema
stored into the process-wide `GraphQLSchemaHost`. -/
structure MergeOutcome where
  optSchema : Option Schema
  optTypeDefs : Option String
  hostSchema : Option Schema

/-- `lodash.isEmpty` on the `typeDefs` option (absent or empty string). -/
def isEmptyTypeDefs : Option String → Bool
  | none => true
  | some s => s.isEmpty

/-- The local `transformSchema` closure of lines 59-60:
`options.transformSchema ? options.transformSchema(schema) : schema`. -/
def applyTransformHook (hook : Option (Option Schema → Option Schema))
    (schema : Option Schema) : Option Schema :=
  match hook with
  | some f => f schema
  | none => schema

/-- `mergeWithSchema` (lines 53-78).  The heavy schema producers
(`generateSchema`, which includes the override pass and the optional
merge with a hand-written schema, and `buildSchemaFromTypeDefs`) are
external orchestration; they are parameters.  Source order: pick the
schema by the three-way branch (lines 62-69), store it in the schema
host (line 71), then return the options with the transform hook applied
to the schema and `typeDefs` cleared (lines 73-77). -/
def mergeWithSchema (options : GqlModuleOptions)
    (generateSchema : GqlModuleOptions → Schema)
    (buildSchemaFromTypeDefs : GqlModuleOptions → Schema) : MergeOutcome :=
  let schema : Option Schema :=
    if !isFalsy options.autoSchemaFile then
      some (generateSchema options)
    else if isEmptyTypeDefs options.typeDefs then
      options.schema
    else
      some (buildSchemaFromTypeDefs options)
  { hostSchema := schema
    optSchema := applyTransformHook options.transformSchemaHook schema
    optTypeDefs := none }

/-! ### Heap model of the in-place pass (for the frame property)

The override pass mutates the federated schema's type objects in place.
To state what it does *not* touch, the pass is replayed against an
explicit object heap: every named type lives at its `id`, a schema is a
list of ids, and an iteration step reads the federated object, computes
its successor with `overrideStep` (reading the auto-generated types from
the current heap), and writes back.  The only branch whose result is not
the (mutated) federated object itself is the enum branch, which returns
the auto-generated object: there the source performs no write at all,
and the new federated type map simply refers to the auto-generated
object — reflected here by writing back only when the result still has
the federated object's identity. -/

/-- An object heap: object identity to current type data. -/
abbrev Heap := List (Nat × NamedType)

/-- Overwrite the object stored at identity `i`. -/
def heapUpdate (h : Heap) (i : Nat) (t : NamedType) : Heap :=
  h.map (fun kv => if kv.1 = i then (i, t) else kv)

/-- The types an id list currently denotes on the heap. -/
def heapSchema (h : Heap) (ids : List Nat) : Schema :=
  ids.filterMap (fun i => h.lookup i)

/-- The in-place override pass over the heap: returns the ids of the new
federated type map and the final heap. -/
def overridePassInPlace (autoIds : List Nat) :
    List Nat → Heap → Except String (List Nat × Heap)
  | [], heap => .ok ([], heap)
  | fid :: rest, heap =>
    match heap.lookup fid with
    | none => .error "missing type object"
    | some t =>
      match overrideStep (heapSchema heap autoIds) t with
      | .error e => .error e
      | .ok t' =>
        let heap' := if t'.id = fid then heapUpdate heap fid t' else heap
        match overridePassInPlace autoIds rest heap' with
        | .error e => .error e
        | .ok (ids, h) => .ok (t'.id :: ids, h)

/-! ### Association-list lemmas -/

theorem lookup_append {α : Type} (l₁ l₂ : List (String × α)) (k : String) :
    (l₁ ++ l₂).lookup k =
      match l₁.lookup k with
      | some v => some v
      | none => l₂.lookup k := by
  induction l₁ with
  | nil => simp [List.lookup]
  | cons kv rest ih =>
    simp only [List.cons_append, List.lookup]
    cases h : k == kv.1 <;> simp [ih]

theorem lookup_isSome_of_mem {α : Type} {l : List (String × α)} {k : String}
    {v : α} (h : (k, v) ∈ l) : (l.lookup k).isSome = true := by
  induction l with
  | nil => cases h
  | cons kv rest ih =>
    rcases List.mem_cons.mp h with heq | hmem
    · cases heq
      simp [List.lookup]
    · simp only [List.lookup]
      cases hbeq : k == kv.1
      · exact ih hmem
      · rfl

theorem lookup_filter_of_some {α : Type} {b : List (String × α)}
    (a : List (String × α)) {k : String} {w : α} (h : b.lookup k = some w) :
    ((a.filter (fun kv => (b.lookup kv.1).isNone)).lookup k) = none := by
  induction a with
  | nil => rfl
  | cons kv rest ih =>
    simp only [List.filter]
    cases hp : (b.lookup kv.1).isNone
    · exact ih
    · have hkne : (k == kv.1) = false := by
        cases hbeq : k == kv.1
        · rfl
        · have heq : k = kv.1 := eq_of_beq hbeq
          rw [← heq, h] at hp
          simp at hp
      simp [List.lookup, hkne, ih]

theorem lookup_filter_of_none {α : Type} {b : List (String × α)}
    (a : List (String × α)) {k : String} (h : b.lookup k = none) :
    ((a.filter (fun kv => (b.lookup kv.1).isNone)).lookup k) = a.lookup k := by
  induction a with
  | nil => rfl
  | cons kv rest ih =>
    simp only [List.filter]
    cases hbeq : k == kv.1
    · cases hp : (b.lookup kv.1).isNone
      · simp [List.lookup, hbeq, ih]
      · simp [List.lookup, hbeq, ih]
    · have : kv.1 = k := (eq_of_beq hbeq).symm
      rw [this, h]
      simp [List.lookup, hbeq]

/-- Key-to-value semantics of the JS spread: `b` wins on collision. -/
theorem lookup_jsSpread (a b : JObj) (k : String) :
    (jsSpread a b).lookup k =
      match b.lookup k with
      | some v => some v
      | none => a.lookup k := by
  unfold jsSpread
  rw [lookup_append]
  cases h : b.lookup k
  · rw [lookup_filter_of_none a h]
    cases a.lookup k <;> rfl
  · rw [lookup_filter_of_some a h]

theorem filter_keys_self_eq_nil {α : Type} (b : List (String × α)) :
    b.filter (fun kv => (b.lookup kv.1).isNone) = [] := by
  rw [List.filter_eq_nil_iff]
  intro kv hmem
  have hs : (b.lookup kv.1).isSome = true :=
    lookup_isSome_of_mem (l := b) (k := kv.1) (v := kv.2) (by
      simpa using hmem)
  intro hnone
  rw [Option.isNone_iff_eq_none] at hnone
  rw [hnone] at hs
  cases hs

/-- The JS spread is right-absorbing: spreading `b` over a value that
already ends in `b` changes nothing. -/
theorem jsSpread_jsSpread_self (a b : JObj) :
    jsSpread (jsSpread a b) b = jsSpread a b := by
  unfold jsSpread
  rw [List.filter_append, filter_keys_self_eq_nil, List.append_nil,
    List.append_cancel_right_eq]
  apply List.filter_eq_self.mpr
  intro kv hmem
  exact (List.mem_filter.mp hmem).2

theorem lookup_map_keyed {α β : Type} (f : String → α → β)
    (l : List (String × α)) (k : String) :
    (l.map (fun kv => (kv.1, f kv.1 kv.2))).lookup k =
      (l.lookup k).map (f k) := by
  induction l with
  | nil => rfl
  | cons kv rest ih =>
    simp only [List.map, List.lookup]
    cases hbeq : k == kv.1
    · exact ih
    · have : k = kv.1 := eq_of_beq hbeq
      subst this
      rfl

theorem lookup_of_nodup_mem {α : Type} {l : List (String × α)} {k : String}
    {v : α} (hnd : (l.map Prod.fst).Nodup) (hmem : (k, v) ∈ l) :
    l.lookup k = some v := by
  induction l with
  | nil => cases hmem
  | cons kv rest ih =>
    simp only [List.map, List.nodup_cons] at hnd
    rcases List.mem_cons.mp hmem with heq | hmem'
    · cases heq
      simp [List.lookup]
    · have hkne : (k == kv.1) = false := by
        cases hbeq : k == kv.1
        · rfl
        · have : k = kv.1 := eq_of_beq hbeq
          subst this
          exact absurd (List.mem_map_of_mem Prod.fst hmem') hnd.1
      simp [List.lookup, hkne]
      exact ih hnd.2 hmem'

theorem map_eq_self_of_fixed {α : Type} {f : α → α} {l : List α}
    (h : ∀ x ∈ l, f x = x) : l.map f = l := by
  induction l with
  | nil => rfl
  | cons x rest ih =>
    simp only [List.map, h x (List.mem_cons_self x rest)]
    rw [ih (fun y hy => h y (List.mem_cons_of_mem x hy))]

theorem isUnionType_iff {t : NamedType} :
    isUnionType t = true ↔ ∃ rt, t.kind = .union rt := by
  unfold isUnionType
  cases hk : t.kind <;> simp

theorem isInterfaceType_iff {t : NamedType} :
    isInterfaceType t = true ↔ ∃ fs rt, t.kind = .interfaceK fs rt := by
  unfold isInterfaceType
  cases hk : t.kind <;> simp

theorem isObjectType_iff {t : NamedType} :
    isObjectType t = true ↔ ∃ fs, t.kind = .object fs := by
  unfold isObjectType
  cases hk : t.kind <;> simp

/-! ### Claim theorems -/

/-- C3: a named type of the federated schema (of any kind) with no
same-named type in the auto-generated schema passes through the override
unchanged, and no error is raised. -/
theorem unmatched_type_unchanged (auto : Schema) (t : NamedType)
    (h : getType auto t.name = none) :
    overrideStep auto t = .ok t := by
  unfold overrideStep overrideType overrideFederatedResolveType
  cases hk : t.kind <;> simp only [hk, h] <;>
    first
      | rfl
      | (split <;> rfl)

/-- Witness for C3 at a concrete enum type and empty auto schema. -/
theorem unmatched_type_unchanged_witness :
    overrideStep []
      { id := 0, name := "Status", astNode := none, extensions := [],
        kind := .enum 7 } =
    .ok { id := 0, name := "Status", astNode := none, extensions := [],
          kind := .enum 7 } :=
  unmatched_type_unchanged []
    { id := 0, name := "Status", astNode := none, extensions := [],
      kind := .enum 7 } rfl

theorem lookup_extendRM (a b : ResolverMap) (k : String) :
    (extendRM a b).lookup k =
      match b.lookup k with
      | some v => some v
      | none => a.lookup k :=
  lookup_jsSpread a b k

theorem lookup_foldl_extendRM (ms : List ResolverMap) (acc : ResolverMap)
    (k : String) :
    ((ms.foldl extendRM acc).lookup k) =
      ms.foldl (fun a m =>
        match m.lookup k with
        | some v => some v
        | none => a) (acc.lookup k) := by
  induction ms generalizing acc with
  | nil => rfl
  | cons m rest ih =>
    simp only [List.foldl]
    rw [ih, lookup_extendRM]

/-- C5: the resolver map is the shallow merge, in the fixed order
auto-discovered resolvers, then scalar resolvers, then caller-supplied
resolvers (a lone map treated as a one-element list); for every key the
final entry is the one from the latest source that binds the key
(`lastLookup`). -/
theorem resolver_precedence (explored : ResolverMap)
    (scalarsExplored : List ResolverMap) (optionResolvers : CallerResolvers)
    (k : String) :
    (getResolvers explored scalarsExplored optionResolvers).lookup k =
      lastLookup (explored :: (scalarsExplored ++
        callerResolverList optionResolvers)) k := by
  unfold getResolvers extendResolvers lastLookup
  rw [lookup_foldl_extendRM]
  rfl

/-- C6: version resolution never throws (it is a total function) and
falls back silently: a falsy or non-object `autoSchemaFile` yields the
default version 1 with no config; an object whose `federation` field is
not of JS type 'object' yields that field's value — the default when the
field is nullish — with no config. -/
theorem federation_version_fallback :
    (∀ x : JSVal, isFalsy x = true ∨ typeofObject x = false →
      getFederationVersionAndConfig x = (DEFAULT_FEDERATION_VERSION, none)) ∧
    (∀ fields : List (String × JSVal),
      typeofObject (getProp (.obj fields) "federation") = false →
      getFederationVersionAndConfig (.obj fields) =
        ((if isNullish (getProp (.obj fields) "federation") then
            DEFAULT_FEDERATION_VERSION
          else getProp (.obj fields) "federation"), none)) := by
  constructor
  · intro x hx
    unfold getFederationVersionAndConfig
    rcases hx with h | h <;> simp [h]
  · intro fields hf
    unfold getFederationVersionAndConfig
    rw [show isFalsy (.obj fields) = false from rfl,
      show typeofObject (.obj fields) = true from rfl]
    simp [hf]

/-- Witness for C6: a string `autoSchemaFile` (a file path) and an
object without a `federation` field both fall back to version 1. -/
theorem federation_version_fallback_witness :
    getFederationVersionAndConfig (.str "schema.gql") =
      (DEFAULT_FEDERATION_VERSION, none) ∧
    getFederationVersionAndConfig (.obj [("sortSchema", .bool true)]) =
      (DEFAULT_FEDERATION_VERSION, none) :=
  ⟨federation_version_fallback.1 (.str "schema.gql") (Or.inr rfl),
   federation_version_fallback.2 [("sortSchema", .bool true)] rfl⟩

/-- C7: `{federation: 2}` resolves to version 2 with no config;
`{federation: {version: 2, someOption: true}}` resolves to version 2
with the federation object as config. -/
theorem federation_version_examples :
    getFederationVersionAndConfig (.obj [("federation", .num 2)]) =
      (.num 2, none) ∧
    getFederationVersionAndConfig
      (.obj [("federation",
        .obj [("version", .num 2), ("someOption", .bool true)])]) =
      (.num 2, some (.obj [("version", .num 2), ("someOption", .bool true)])) :=
  ⟨rfl, rfl⟩

/-- A concrete object type used by counterexamples. -/
def tObject : NamedType :=
  { id := 99, name := "T", astNode := none, extensions := [],
    kind := .object [] }

/-- Options with a transform hook that replaces the schema. -/
def hostCexOptions : GqlModuleOptions :=
  { autoSchemaFile := .bool true, typeDefs := none, schema := none,
    transformSchemaHook := some (fun _ => some [tObject]) }

/-- C8 counterexample: with a transform hook that returns a different
schema, the schema stored in the process-wide host is not the
post-transform schema returned in the options — the host is assigned
(line 71) before the hook is applied to the returned value (line 75). -/
theorem merge_host_stores_pre_transform_cex :
    (mergeWithSchema hostCexOptions (fun _ => []) (fun _ => [])).hostSchema ≠
    (mergeWithSchema hostCexOptions (fun _ => []) (fun _ => [])).optSchema := by
  intro h
  simp [mergeWithSchema, hostCexOptions, applyTransformHook, isFalsy,
    tObject] at h

/-- C8 (amended): for every options input, `mergeWithSchema` returns the
original options with `typeDefs` cleared and `schema` set to the
composed schema with the caller's transform hook applied; the schema
stored in the process-wide schema host is the composed schema from
*before* the hook (the returned schema is the hook applied to the stored
one). -/
theorem mergeWithSchema_outcome (options : GqlModuleOptions)
    (generateSchema buildSchemaFromTypeDefs : GqlModuleOptions → Schema) :
    (mergeWithSchema options generateSchema
        buildSchemaFromTypeDefs).optTypeDefs = none ∧
    (mergeWithSchema options generateSchema
        buildSchemaFromTypeDefs).optSchema =
      applyTransformHook options.transformSchemaHook
        (mergeWithSchema options generateSchema
          buildSchemaFromTypeDefs).hostSchema ∧
    (mergeWithSchema options generateSchema
        buildSchemaFromTypeDefs).hostSchema =
      (if !isFalsy options.autoSchemaFile then
        some (generateSchema options)
      else if isEmptyTypeDefs options.typeDefs then
        options.schema
      else
        some (buildSchemaFromTypeDefs options)) :=
  ⟨rfl, rfl, rfl⟩

/-- C1: on a federated union (other than `_Entity`) or interface whose
same-named auto-generated type is a union or interface carrying a
`resolveType`, the override installs the wrapper around the
auto-generated callback, and on every invocation the wrapper: returns
the awaited inner result unchanged when it is empty or a string; when it
is a type, looks its name up via `info.schema` and returns the
federated-schema instance when that lookup yields an object type; and
otherwise (lookup fails, or yields a non-object type) returns the raw
inner result. -/
theorem resolveType_wrapper_spec (auto : Schema) (t a : NamedType) (f : RTFn)
    (habs : (isUnionType t = true ∧ t.name ≠ "_Entity") ∨
      isInterfaceType t = true)
    (hget : getType auto t.name = some a)
    (hrt : abstractResolveType a = some f) :
    ∃ t', overrideStep auto t = .ok t' ∧
      abstractResolveType t' = some (.wrapped f) ∧
      ∀ (P : Nat → RInput → RTResult) (i : RInput),
        (evalRT P f i = .empty → evalRT P (.wrapped f) i = .empty) ∧
        (∀ s, evalRT P f i = .str s → evalRT P (.wrapped f) i = .str s) ∧
        (∀ ot ft, evalRT P f i = .obj ot →
          getType i.infoSchema ot.name = some ft → isObjectType ft = true →
          evalRT P (.wrapped f) i = .obj ft) ∧
        (∀ ot ft, evalRT P f i = .obj ot →
          getType i.infoSchema ot.name = some ft → isObjectType ft = false →
          evalRT P (.wrapped f) i = .obj ot) ∧
        (∀ ot, evalRT P f i = .obj ot →
          getType i.infoSchema ot.name = none →
          evalRT P (.wrapped f) i = .obj ot) := by
  have hbehave : ∀ (P : Nat → RInput → RTResult) (i : RInput),
      (evalRT P f i = .empty → evalRT P (.wrapped f) i = .empty) ∧
      (∀ s, evalRT P f i = .str s → evalRT P (.wrapped f) i = .str s) ∧
      (∀ ot ft, evalRT P f i = .obj ot →
        getType i.infoSchema ot.name = some ft → isObjectType ft = true →
        evalRT P (.wrapped f) i = .obj ft) ∧
      (∀ ot ft, evalRT P f i = .obj ot →
        getType i.infoSchema ot.name = some ft → isObjectType ft = false →
        evalRT P (.wrapped f) i = .obj ot) ∧
      (∀ ot, evalRT P f i = .obj ot →
        getType i.infoSchema ot.name = none →
        evalRT P (.wrapped f) i = .obj ot) := by
    intro P i
    refine ⟨?_, ?_, ?_, ?_, ?_⟩
    · intro h
      simp [evalRT, h]
    · intro s h
      simp [evalRT, h]
    · intro ot ft h hft hobj
      simp [evalRT, h, hft, hobj]
    · intro ot ft h hft hobj
      simp [evalRT, h, hft, hobj]
    · intro ot h hft
      simp [evalRT, h, hft]
  rcases habs with ⟨hu, hne⟩ | hi
  · obtain ⟨rt, hk⟩ := isUnionType_iff.mp hu
    refine ⟨{ t with kind := .union (some (.wrapped f)) }, ?_, rfl, hbehave⟩
    unfold overrideStep overrideType overrideFederatedResolveType
      setAbstractResolveType
    simp [hk, hne, hget, hrt, Except.map]
  · obtain ⟨fs, rt, hk⟩ := isInterfaceType_iff.mp hi
    refine ⟨{ t with kind := .interfaceK fs (some (.wrapped f)) }, ?_, rfl,
      hbehave⟩
    unfold overrideStep overrideType overrideFederatedResolveType
      setAbstractResolveType
    simp [hk, hget, hrt, Except.map]

/-- An auto-generated union with a `resolveType`, for witnesses. -/
def wAutoUnion : NamedType :=
  { id := 50, name := "SearchResult", astNode := none, extensions := [],
    kind := .union (some (.prim 3)) }

/-- The same-named federated union, without a `resolveType`. -/
def wFedUnion : NamedType :=
  { id := 51, name := "SearchResult", astNode := none, extensions := [],
    kind := .union none }

/-- Witness for C1 at a concrete union pair. -/
theorem resolveType_wrapper_spec_witness :
    ∃ t', overrideStep [wAutoUnion] wFedUnion = .ok t' ∧
      abstractResolveType t' = some (.wrapped (.prim 3)) := by
  obtain ⟨t', h1, h2, _⟩ :=
    resolveType_wrapper_spec [wAutoUnion] wFedUnion wAutoUnion (.prim 3)
      (Or.inl ⟨rfl, by decide⟩) rfl rfl
  exact ⟨t', h1, h2⟩

/-- C10: the wrapper is installed only when the same-named
auto-generated type exists, is a union or interface, and carries a
`resolveType` (`abstractResolveType a = some f` is exactly "union or
interface with a resolveType"); when the lookup fails, or the
auto-generated type is of another kind or lacks a `resolveType`, the
federated union/interface is returned completely unchanged. -/
theorem resolveType_wrapper_guard (auto : Schema) (t : NamedType)
    (habs : (isUnionType t = true ∧ t.name ≠ "_Entity") ∨
      isInterfaceType t = true) :
    (getType auto t.name = none → overrideStep auto t = .ok t) ∧
    (∀ a, getType auto t.name = some a → abstractResolveType a = none →
      overrideStep auto t = .ok t) := by
  rcases habs with ⟨hu, hne⟩ | hi
  · obtain ⟨rt, hk⟩ := isUnionType_iff.mp hu
    constructor
    · intro h
      unfold overrideStep overrideType overrideFederatedResolveType
      simp [hk, hne, h, Except.map]
    · intro a hget hrt
      unfold overrideStep overrideType overrideFederatedResolveType
      simp [hk, hne, hget, hrt, Except.map]
  · obtain ⟨fs, rt, hk⟩ := isInterfaceType_iff.mp hi
    constructor
    · intro h
      unfold overrideStep overrideType overrideFederatedResolveType
      simp [hk, h, Except.map]
    · intro a hget hrt
      unfold overrideStep overrideType overrideFederatedResolveType
      simp [hk, hget, hrt, Except.map]

/-- Witness for C10: with an empty auto-generated schema the federated
union passes through unchanged. -/
theorem resolveType_wrapper_guard_witness :
    overrideStep [] wFedUnion = .ok wFedUnion :=
  (resolveType_wrapper_guard [] wFedUnion (Or.inl ⟨rfl, by decide⟩)).1 rfl

/-- C2: per matching field of a federated object type, the override
copies `extensions` and `astNode` from the auto-generated field
unconditionally, keeps the federated field's `resolve` whenever one is
present, and copies the auto-generated `resolve` only when the federated
field has none. -/
theorem object_field_resolve_preserved (auto : Schema) (t a t' : NamedType)
    (autoFields : List (String × FieldData))
    (hobj : isObjectType t = true)
    (hget : getType auto t.name = some a)
    (hfields : getFieldsOf a = some autoFields)
    (hstep : overrideStep auto t = .ok t') :
    ∀ k v fa, (objectFields t).lookup k = some v →
      autoFields.lookup k = some fa →
      ∃ v', (objectFields t').lookup k = some v' ∧
        v'.extensions = fa.extensions ∧
        v'.astNode = fa.astNode ∧
        (∀ r, v.resolve = some r → v'.resolve = some r) ∧
        (v.resolve = none → v'.resolve = fa.resolve) := by
  obtain ⟨fields, hk⟩ := isObjectType_iff.mp hobj
  have hcomp : overrideStep auto t = .ok { t with
      astNode :=
        match a.astNode with
        | none => t.astNode
        | some autoAst => some (jsSpread (t.astNode.getD []) autoAst)
      extensions := jsSpread t.extensions a.extensions
      kind := .object (fields.map (fun kv =>
        (kv.1,
          match autoFields.lookup kv.1 with
          | none => kv.2
          | some field => mergeObjectField kv.2 field))) } := by
    unfold overrideStep overrideType
    simp [hk, hget, hfields, Except.map]
  rw [hcomp] at hstep
  injection hstep with hstep
  subst hstep
  intro k v fa hv hfa
  refine ⟨mergeObjectField v fa, ?_, rfl, rfl, ?_, ?_⟩
  · have hvf : fields.lookup k = some v := by
      rw [show objectFields t = fields from by simp [objectFields, hk]] at hv
      exact hv
    have hmap := lookup_map_keyed (fun key fv =>
      match autoFields.lookup key with
      | none => fv
      | some field => mergeObjectField fv field) fields k
    simp only [hvf, hfa, Option.map_some'] at hmap
    exact hmap
  · intro r hr
    simp [mergeObjectField, hr]
  · intro hr
    simp [mergeObjectField, hr]

/-- An auto-generated object type with a field resolver, for witnesses. -/
def wAutoQuery : NamedType :=
  { id := 60, name := "Query", astNode := none, extensions := [("k", 1)],
    kind := .object [("hello",
      { resolve := some 5, extensions := [("fe", 2)],
        astNode := some [("a", 3)] })] }

/-- The same-named federated object type, whose field has no resolver. -/
def wFedQuery : NamedType :=
  { id := 61, name := "Query", astNode := none, extensions := [],
    kind := .object [("hello",
      { resolve := none, extensions := [], astNode := none })] }

/-- `wFedQuery` after the override against `[wAutoQuery]`. -/
def wFedQueryAfter : NamedType :=
  { id := 61, name := "Query", astNode := none, extensions := [("k", 1)],
    kind := .object [("hello",
      { resolve := some 5, extensions := [("fe", 2)],
        astNode := some [("a", 3)] })] }

/-- Witness for C2 at a concrete object-type pair whose federated field
has no resolver: the auto-generated resolver is copied in. -/
theorem object_field_resolve_preserved_witness :
    ∃ v', (objectFields wFedQueryAfter).lookup "hello" = some v' ∧
      v'.extensions = [("fe", 2)] ∧
      v'.astNode = some [("a", 3)] ∧
      (∀ r, (none : Option Token) = some r → v'.resolve = some r) ∧
      ((none : Option Token) = none → v'.resolve = some 5) :=
  object_field_resolve_preserved [wAutoQuery] wFedQuery wAutoQuery
    wFedQueryAfter (objectFields wAutoQuery) rfl rfl rfl rfl "hello"
    { resolve := none, extensions := [], astNode := none }
    { resolve := some 5, extensions := [("fe", 2)], astNode := some [("a", 3)] }
    rfl rfl

theorem lookup_cons_of_beq_true {α β : Type} [BEq α] {k k0 : α} (v : β)
    (l : List (α × β)) (h : (k == k0) = true) :
    ((k0, v) :: l).lookup k = some v := by
  simp [List.lookup, h]

theorem lookup_cons_of_beq_false {α β : Type} [BEq α] {k k0 : α} (v : β)
    (l : List (α × β)) (h : (k == k0) = false) :
    ((k0, v) :: l).lookup k = l.lookup k := by
  simp [List.lookup, h]

theorem lookup_heapUpdate_ne (h : Heap) (i j : Nat) (t : NamedType)
    (hne : j ≠ i) : (heapUpdate h i t).lookup j = h.lookup j := by
  induction h with
  | nil => rfl
  | cons kv rest ih =>
    obtain ⟨k0, v0⟩ := kv
    have hgoal : heapUpdate ((k0, v0) :: rest) i t =
        (if k0 = i then (i, t) else (k0, v0)) :: heapUpdate rest i t := rfl
    rw [hgoal]
    by_cases hk : k0 = i
    · rw [if_pos hk]
      have hji : (j == i) = false := by
        simp [hne]
      have hjk0 : (j == k0) = false := by
        rw [hk]
        exact hji
      rw [lookup_cons_of_beq_false t (heapUpdate rest i t) hji,
        lookup_cons_of_beq_false v0 rest hjk0]
      exact ih
    · rw [if_neg hk]
      cases hbeq : j == k0
      · rw [lookup_cons_of_beq_false (k0, v0).2 (heapUpdate rest i t) hbeq,
          lookup_cons_of_beq_false v0 rest hbeq]
        exact ih
      · rw [lookup_cons_of_beq_true (k0, v0).2 (heapUpdate rest i t) hbeq,
          lookup_cons_of_beq_true v0 rest hbeq]

/-- C9: the override pass never mutates the auto-generated schema.
Replaying the in-place pass on an explicit object heap — where distinct
JS objects have distinct identities, so the freshly built federated and
auto-generated type objects live at disjoint ids — every auto-generated
type object (with all its fields, extensions, AST node, resolvers and
resolveType) is bound to exactly the same value after the pass as
before; all writes target federated ids (auto-generated objects may
still end up shared into the new federated type map by reference). -/
theorem auto_schema_unmutated (autoIds fedIds : List Nat) (heap : Heap)
    (out : List Nat × Heap)
    (hdisj : ∀ i ∈ fedIds, i ∉ autoIds)
    (hrun : overridePassInPlace autoIds fedIds heap = .ok out) :
    ∀ j ∈ autoIds, out.2.lookup j = heap.lookup j := by
  induction fedIds generalizing heap out with
  | nil =>
    unfold overridePassInPlace at hrun
    injection hrun with hrun
    subst hrun
    intro j hj
    rfl
  | cons fid rest ih =>
    unfold overridePassInPlace at hrun
    cases hlf : heap.lookup fid with
    | none =>
      simp only [hlf] at hrun
      simp at hrun
    | some t =>
      simp only [hlf] at hrun
      cases hstep : overrideStep (heapSchema heap autoIds) t with
      | error e =>
        simp only [hstep] at hrun
        simp at hrun
      | ok t' =>
        simp only [hstep] at hrun
        cases hrec : overridePassInPlace autoIds rest
            (if t'.id = fid then heapUpdate heap fid t' else heap) with
        | error e =>
          simp only [hrec] at hrun
          simp at hrun
        | ok p =>
          simp only [hrec] at hrun
          injection hrun with hrun
          subst hrun
          intro j hj
          have hrest : p.2.lookup j =
              (if t'.id = fid then heapUpdate heap fid t'
               else heap).lookup j :=
            ih _ _ (fun i hi => hdisj i (List.mem_cons_of_mem fid hi))
              hrec j hj
          have hout : p.2.lookup j = heap.lookup j := by
            by_cases hid : t'.id = fid
            · rw [if_pos hid] at hrest
              rw [hrest]
              have hjfid : j ≠ fid := by
                intro hji
                exact hdisj fid (List.mem_cons_self fid rest) (hji ▸ hj)
              exact lookup_heapUpdate_ne heap fid j t' hjfid
            · rw [if_neg hid] at hrest
              exact hrest
          exact hout

theorem jsSpread_self (x : JObj) : jsSpread x x = x := by
  unfold jsSpread
  rw [filter_keys_self_eq_nil]
  rfl

theorem mergeObjectField_idem (v f : FieldData) :
    mergeObjectField (mergeObjectField v f) f = mergeObjectField v f := by
  unfold mergeObjectField
  cases hv : v.resolve
  · cases hf : f.resolve <;> simp
  · simp

theorem getType_name {s : Schema} {n : String} {a : NamedType}
    (h : getType s n = some a) : a.name = n := by
  unfold getType at h
  have hp := List.find?_some h
  exact eq_of_beq hp

theorem object_map_idem (afs fs : List (String × FieldData)) :
    ((fs.map (fun kv =>
      (kv.1,
        match afs.lookup kv.1 with
        | none => kv.2
        | some field => mergeObjectField kv.2 field))).map (fun kv =>
      (kv.1,
        match afs.lookup kv.1 with
        | none => kv.2
        | some field => mergeObjectField kv.2 field))) =
    fs.map (fun kv =>
      (kv.1,
        match afs.lookup kv.1 with
        | none => kv.2
        | some field => mergeObjectField kv.2 field)) := by
  induction fs with
  | nil => rfl
  | cons kv rest ih =>
    simp only [List.map]
    rw [ih]
    cases h : afs.lookup kv.1 <;> simp [h, mergeObjectField_idem]

theorem input_map_idem (afs : List (String × FieldData))
    (fs : List (String × InputFieldData)) :
    ((fs.map (fun kv =>
      (kv.1,
        match afs.lookup kv.1 with
        | none => kv.2
        | some field =>
          ({ extensions := field.extensions,
             astNode := field.astNode } : InputFieldData)))).map (fun kv =>
      (kv.1,
        match afs.lookup kv.1 with
        | none => kv.2
        | some field =>
          ({ extensions := field.extensions,
             astNode := field.astNode } : InputFieldData)))) =
    fs.map (fun kv =>
      (kv.1,
        match afs.lookup kv.1 with
        | none => kv.2
        | some field =>
          ({ extensions := field.extensions,
             astNode := field.astNode } : InputFieldData))) := by
  induction fs with
  | nil => rfl
  | cons kv rest ih =>
    simp only [List.map]
    rw [ih]
    cases h : afs.lookup kv.1 <;> simp [h]

theorem object_map_self (fs : List (String × FieldData))
    (hnd : (fs.map Prod.fst).Nodup) :
    fs.map (fun kv =>
      (kv.1,
        match fs.lookup kv.1 with
        | none => kv.2
        | some field => mergeObjectField kv.2 field)) = fs := by
  apply map_eq_self_of_fixed
  intro kv hmem
  obtain ⟨k, v⟩ := kv
  have hl : fs.lookup k = some v := lookup_of_nodup_mem hnd hmem
  simp only [hl]
  obtain ⟨vr, ve, va⟩ := v
  cases vr <;> rfl

theorem input_map_self (fs : List (String × InputFieldData))
    (hnd : (fs.map Prod.fst).Nodup) :
    fs.map (fun kv =>
      (kv.1,
        match (fs.map (fun kv2 =>
          (kv2.1, ({ resolve := none, extensions := kv2.2.extensions,
                     astNode := kv2.2.astNode } : FieldData)))).lookup kv.1 with
        | none => kv.2
        | some field =>
          ({ extensions := field.extensions,
             astNode := field.astNode } : InputFieldData))) = fs := by
  apply map_eq_self_of_fixed
  intro kv hmem
  obtain ⟨k, v⟩ := kv
  have hl : fs.lookup k = some v := lookup_of_nodup_mem hnd hmem
  have hml := lookup_map_keyed (fun key (fv : InputFieldData) =>
    ({ resolve := none, extensions := fv.extensions,
       astNode := fv.astNode } : FieldData)) fs k
  simp only [hl, Option.map_some'] at hml
  simp only [hml]

/-- A heap holding the witness federated and auto-generated objects. -/
def wHeap : Heap := [(61, wFedQuery), (60, wAutoQuery)]

/-- Witness for C9: running the in-place pass on the concrete heap
leaves the auto-generated object at id 60 untouched. -/
theorem auto_schema_unmutated_witness :
    ((([61], [(61, wFedQueryAfter), (60, wAutoQuery)]) :
        List Nat × Heap)).2.lookup 60 = wHeap.lookup 60 :=
  auto_schema_unmutated [60] [61] wHeap
    ([61], [(61, wFedQueryAfter), (60, wAutoQuery)])
    (by decide) rfl 60 (by decide)

theorem overrideStep_idem (auto : Schema) (t t' : NamedType)
    (hbenign : isEnumType t = true → ∀ a, getType auto t.name = some a →
      abstractResolveType a = none ∧ (fieldKeys a).Nodup)
    (hstep : overrideStep auto t = .ok t') :
    overrideStep auto t' = .ok t' := by
  cases hk : t.kind with
  | union rt =>
    by_cases hne : t.name = "_Entity"
    · have h1 : overrideStep auto t = .ok t := by
        unfold overrideStep overrideType
        simp [hk, hne, Except.map]
      rw [h1] at hstep
      injection hstep with h3
      subst h3
      exact h1
    · cases hget : getType auto t.name with
      | none =>
        have h1 : overrideStep auto t = .ok t := by
          unfold overrideStep overrideType overrideFederatedResolveType
          simp [hk, hne, hget, Except.map]
        rw [h1] at hstep
        injection hstep with h3
        subst h3
        exact h1
      | some a =>
        cases hrt : abstractResolveType a with
        | none =>
          have h1 : overrideStep auto t = .ok t := by
            unfold overrideStep overrideType overrideFederatedResolveType
            simp [hk, hne, hget, hrt, Except.map]
          rw [h1] at hstep
          injection hstep with h3
          subst h3
          exact h1
        | some f =>
          have h1 : overrideStep auto t =
              .ok { t with kind := .union (some (.wrapped f)) } := by
            unfold overrideStep overrideType overrideFederatedResolveType
              setAbstractResolveType
            simp [hk, hne, hget, hrt, Except.map]
          rw [h1] at hstep
          injection hstep with h3
          subst h3
          unfold overrideStep overrideType overrideFederatedResolveType
            setAbstractResolveType
          simp [hne, hget, hrt, Except.map]
  | interfaceK fs rt =>
    cases hget : getType auto t.name with
    | none =>
      have h1 : overrideStep auto t = .ok t := by
        unfold overrideStep overrideType overrideFederatedResolveType
        simp [hk, hget, Except.map]
      rw [h1] at hstep
      injection hstep with h3
      subst h3
      exact h1
    | some a =>
      cases hrt : abstractResolveType a with
      | none =>
        have h1 : overrideStep auto t = .ok t := by
          unfold overrideStep overrideType overrideFederatedResolveType
          simp [hk, hget, hrt, Except.map]
        rw [h1] at hstep
        injection hstep with h3
        subst h3
        exact h1
      | some f =>
        have h1 : overrideStep auto t =
            .ok { t with kind := .interfaceK fs (some (.wrapped f)) } := by
          unfold overrideStep overrideType overrideFederatedResolveType
            setAbstractResolveType
          simp [hk, hget, hrt, Except.map]
        rw [h1] at hstep
        injection hstep with h3
        subst h3
        unfold overrideStep overrideType overrideFederatedResolveType
          setAbstractResolveType
        simp [hget, hrt, Except.map]
  | enum d =>
    cases hget : getType auto t.name with
    | none =>
      have h1 : overrideStep auto t = .ok t := by
        unfold overrideStep overrideType
        simp [hk, hget, Except.map]
      rw [h1] at hstep
      injection hstep with h3
      subst h3
      exact h1
    | some a =>
      obtain ⟨hart, hnd⟩ := hbenign (by simp [isEnumType, hk]) a hget
      have hname : a.name = t.name := getType_name hget
      have h1 : overrideStep auto t = .ok a := by
        unfold overrideStep overrideType
        simp [hk, hget, Except.map]
      rw [h1] at hstep
      injection hstep with h3
      subst h3
      obtain ⟨aid, aname, aast, aext, akind⟩ := a
      have hname2 : aname = t.name := hname
      cases akind with
      | union rt2 =>
        have hrt2 : rt2 = none := by
          simpa [abstractResolveType] using hart
        subst hrt2
        by_cases hne2 : aname = "_Entity"
        · unfold overrideStep overrideType
          simp [hne2, Except.map]
        · unfold overrideStep overrideType overrideFederatedResolveType
          simp [hne2, hname2, hget, abstractResolveType, Except.map]
      | interfaceK fs2 rt2 =>
        have hrt2 : rt2 = none := by
          simpa [abstractResolveType] using hart
        subst hrt2
        unfold overrideStep overrideType overrideFederatedResolveType
        simp [hname2, hget, abstractResolveType, Except.map]
      | enum d2 =>
        unfold overrideStep overrideType
        simp [hname2, hget, Except.map]
      | inputObject fs2 =>
        have hnd2 : (fs2.map Prod.fst).Nodup := by
          simpa [fieldKeys] using hnd
        unfold overrideStep overrideType getFieldsOf
        simp [hname2, hget, Except.map, input_map_self fs2 hnd2]
      | object fs2 =>
        have hnd2 : (fs2.map Prod.fst).Nodup := by
          simpa [fieldKeys] using hnd
        cases aast with
        | none =>
          unfold overrideStep overrideType getFieldsOf
          simp [hname2, hget, Except.map, object_map_self fs2 hnd2,
            jsSpread_self]
        | some x =>
          unfold overrideStep overrideType getFieldsOf
          simp [hname2, hget, Except.map, object_map_self fs2 hnd2,
            jsSpread_self]
      | scalar pl2 pv2 =>
        by_cases hdt2 : aname = "DateTime"
        · have hgetd : getType auto "DateTime" =
              some { id := aid, name := aname, astNode := aast,
                     extensions := aext, kind := .scalar pl2 pv2 } := by
            conv_lhs => rw [← hdt2, hname2]
            exact hget
          unfold overrideStep overrideType
          simp [hdt2, hgetd, Except.map]
        · unfold overrideStep overrideType
          simp [hdt2, Except.map]
  | inputObject fs =>
    cases hget : getType auto t.name with
    | none =>
      have h1 : overrideStep auto t = .ok t := by
        unfold overrideStep overrideType
        simp [hk, hget, Except.map]
      rw [h1] at hstep
      injection hstep with h3
      subst h3
      exact h1
    | some a =>
      cases haf : getFieldsOf a with
      | none =>
        have h1 : overrideStep auto t =
            .error "TypeError: getFields is not a function" := by
          unfold overrideStep overrideType
          simp [hk, hget, haf, Except.map]
        rw [h1] at hstep
        simp at hstep
      | some afs =>
        have h1 : overrideStep auto t = .ok { t with
            extensions := a.extensions
            kind := .inputObject (fs.map (fun kv =>
              (kv.1,
                match afs.lookup kv.1 with
                | none => kv.2
                | some field =>
                  ({ extensions := field.extensions,
                     astNode := field.astNode } : InputFieldData)))) } := by
          unfold overrideStep overrideType
          simp [hk, hget, haf, Except.map]
        rw [h1] at hstep
        injection hstep with h3
        subst h3
        unfold overrideStep overrideType
        simp [hget, haf, Except.map]
        intro k b hmem
        cases h : afs.lookup k <;> simp [h]
  | object fs =>
    cases hget : getType auto t.name with
    | none =>
      have h1 : overrideStep auto t = .ok t := by
        unfold overrideStep overrideType
        simp [hk, hget, Except.map]
      rw [h1] at hstep
      injection hstep with h3
      subst h3
      exact h1
    | some a =>
      cases haf : getFieldsOf a with
      | none =>
        have h1 : overrideStep auto t =
            .error "TypeError: getFields is not a function" := by
          unfold overrideStep overrideType
          simp [hk, hget, haf, Except.map]
        rw [h1] at hstep
        simp at hstep
      | some afs =>
        cases haa : a.astNode with
        | none =>
          have h1 : overrideStep auto t = .ok { t with
              extensions := jsSpread t.extensions a.extensions
              kind := .object (fs.map (fun kv =>
                (kv.1,
                  match afs.lookup kv.1 with
                  | none => kv.2
                  | some field => mergeObjectField kv.2 field))) } := by
            unfold overrideStep overrideType
            simp [hk, hget, haf, haa, Except.map]
          rw [h1] at hstep
          injection hstep with h3
          subst h3
          unfold overrideStep overrideType
          simp [hget, haf, haa, Except.map, jsSpread_jsSpread_self]
          intro k b hmem
          cases h : afs.lookup k <;> simp [h, mergeObjectField_idem]
        | some aast =>
          have h1 : overrideStep auto t = .ok { t with
              astNode := some (jsSpread (t.astNode.getD []) aast)
              extensions := jsSpread t.extensions a.extensions
              kind := .object (fs.map (fun kv =>
                (kv.1,
                  match afs.lookup kv.1 with
                  | none => kv.2
                  | some field => mergeObjectField kv.2 field))) } := by
            unfold overrideStep overrideType
            simp [hk, hget, haf, haa, Except.map]
          rw [h1] at hstep
          injection hstep with h3
          subst h3
          unfold overrideStep overrideType
          simp [hget, haf, haa, Except.map, jsSpread_jsSpread_self]
          intro k b hmem
          cases h : afs.lookup k <;> simp [h, mergeObjectField_idem]
  | scalar pl pv =>
    by_cases hdt : t.name = "DateTime"
    · cases hget : getType auto t.name with
      | none =>
        have hgetd : getType auto "DateTime" = none := by
          rw [← hdt]
          exact hget
        have h1 : overrideStep auto t = .ok t := by
          unfold overrideStep overrideType
          simp [hk, hdt, hgetd, Except.map]
        rw [h1] at hstep
        injection hstep with h3
        subst h3
        exact h1
      | some a =>
        have hgetd : getType auto "DateTime" = some a := by
          rw [← hdt]
          exact hget
        have h1 : overrideStep auto t = .ok { t with
            kind := .scalar
              (match a.kind with
               | .scalar p _ => p
               | _ => none)
              (match a.kind with
               | .scalar _ q => q
               | _ => none) } := by
          unfold overrideStep overrideType
          simp [hk, hdt, hgetd, Except.map]
        rw [h1] at hstep
        injection hstep with h3
        subst h3
        unfold overrideStep overrideType
        simp [hdt, hgetd, Except.map]
    · have h1 : overrideStep auto t = .ok t := by
        unfold overrideStep overrideType
        simp [hk, hdt, Except.map]
      rw [h1] at hstep
      injection hstep with h3
      subst h3
      exact h1

theorem mapE_overrideStep_idem (auto : Schema) (fed : Schema) :
    ∀ fed' : Schema,
      (∀ t ∈ fed, isEnumType t = true → ∀ a, getType auto t.name = some a →
        abstractResolveType a = none ∧ (fieldKeys a).Nodup) →
      mapE (overrideStep auto) fed = .ok fed' →
      mapE (overrideStep auto) fed' = .ok fed' := by
  induction fed with
  | nil =>
    intro fed' _ h
    unfold mapE at h
    injection h with h
    subst h
    rfl
  | cons t rest ih =>
    intro fed' hbenign h
    unfold mapE at h
    cases hstep : overrideStep auto t with
    | error e =>
      simp only [hstep] at h
      simp at h
    | ok t' =>
      simp only [hstep] at h
      cases hrest : mapE (overrideStep auto) rest with
      | error e =>
        simp only [hrest] at h
        simp at h
      | ok rest' =>
        simp only [hrest] at h
        injection h with h
        subst h
        have hidem := overrideStep_idem auto t t'
          (hbenign t (List.mem_cons_self t rest)) hstep
        have hrec := ih rest'
          (fun u hu => hbenign u (List.mem_cons_of_mem t hu)) hrest
        unfold mapE
        simp [hidem, hrec]

/-- C4 (amended): the override pass is idempotent provided that no
federated enum type shares its name with an auto-generated union or
interface that carries a `resolveType`, and that same-named
auto-generated types have duplicate-free field keys (JS field maps
always do).  Without the proviso, a federated enum is wholesale-replaced
by the same-named auto-generated abstract type on the first pass, and
the second pass then wraps that type's own `resolveType`
(see the counterexample). -/
theorem override_pass_idempotent (fed auto fed' : Schema)
    (hbenign : ∀ t ∈ fed, isEnumType t = true →
      ∀ a, getType auto t.name = some a →
        abstractResolveType a = none ∧ (fieldKeys a).Nodup)
    (h : overrideOrExtendResolvers fed auto = .ok fed') :
    overrideOrExtendResolvers fed' auto = .ok fed' :=
  mapE_overrideStep_idem auto fed fed' hbenign h

/-- Witness for C4 at a concrete benign pair (a federated union whose
auto-generated counterpart carries a resolveType). -/
theorem override_pass_idempotent_witness :
    overrideOrExtendResolvers
      [{ id := 51, name := "SearchResult", astNode := none, extensions := [],
         kind := .union (some (.wrapped (.prim 3))) }] [wAutoUnion] =
    .ok [{ id := 51, name := "SearchResult", astNode := none,
           extensions := [],
           kind := .union (some (.wrapped (.prim 3))) }] :=
  override_pass_idempotent [wFedUnion] [wAutoUnion]
    [{ id := 51, name := "SearchResult", astNode := none, extensions := [],
       kind := .union (some (.wrapped (.prim 3))) }]
    (by
      intro u hu he
      rcases List.mem_singleton.mp hu with rfl
      exact absurd he (by decide))
    rfl

/-- The auto-generated schema of the C4 counterexample: a union `U`
carrying a `resolveType`. -/
def cexAuto : Schema :=
  [{ id := 10, name := "U", astNode := none, extensions := [],
     kind := .union (some (.prim 0)) }]

/-- The federated schema of the C4 counterexample: an enum also named
`U`. -/
def cexFed : Schema :=
  [{ id := 0, name := "U", astNode := none, extensions := [],
     kind := .enum 0 }]

/-- `cexFed` after one pass: the enum was wholesale-replaced by the
auto-generated union object. -/
def cexFedOnce : Schema :=
  [{ id := 10, name := "U", astNode := none, extensions := [],
     kind := .union (some (.prim 0)) }]

/-- `cexFedOnce` after another pass: the union's `resolveType` got
wrapped. -/
def cexFedTwice : Schema :=
  [{ id := 10, name := "U", astNode := none, extensions := [],
     kind := .union (some (.wrapped (.prim 0))) }]

/-- An object type playing the auto-generated `resolveType` result in
the C4 counterexample. -/
def cexAutoRes : NamedType :=
  { id := 20, name := "T", astNode := none, extensions := [],
    kind := .object [] }

/-- The same-named object type of the federated schema seen through
`info.schema` at request time. -/
def cexFedRes : NamedType :=
  { id := 21, name := "T", astNode := none, extensions := [],
    kind := .object [] }

/-- A concrete `resolveType` invocation whose `info.schema` holds
`cexFedRes`. -/
def cexInput : RInput :=
  { value := 0, context := 0, abstractType := 0, infoSchema := [cexFedRes] }

/-- C4 counterexample: on the pair (`cexFed`, `cexAuto`) the second pass
does not reproduce the first pass's output — it stacks a wrapper around
the `resolveType` of the auto-generated union that replaced the
federated enum — and the stacked wrapper is observably different from
the plain callback (it remaps object-type results through
`info.schema`), so the schemas are not observationally equal either. -/
theorem override_pass_not_idempotent_cex :
    overrideOrExtendResolvers cexFed cexAuto = .ok cexFedOnce ∧
    overrideOrExtendResolvers cexFedOnce cexAuto ≠ .ok cexFedOnce ∧
    evalRT (fun _ _ => .obj cexAutoRes) (.wrapped (.prim 0)) cexInput ≠
      evalRT (fun _ _ => .obj cexAutoRes) (.prim 0) cexInput := by
  refine ⟨rfl, ?_, ?_⟩
  · intro h
    have h2 : overrideOrExtendResolvers cexFedOnce cexAuto =
        .ok cexFedTwice := rfl
    rw [h2] at h
    injection h with h
    exact absurd h (by decide)
  · intro h
    exact absurd h (by decide)

end GqlFed